import Mathlib

/-!
Verification of the music-analyser backend (singing-practice scoring service).

The definitions below are shallow embeddings of the Python sources:
  * `app/config.py`           — settings parsing (audio formats, CORS origins)
  * `app/utils/dependencies.py` — upload validation and the extension→MIME table
  * `app/services/audio_processor.py` — `extract_segment`
  * `app/utils/security.py`   — password hashing/verification, user resolution
  * `app/services/file_service.py`    — `create_recording_record`, `cleanup_expired_files`
  * `app/services/analyzer.py`        — pitch comparison and composite scoring
  * `app/api/recording.py`, `app/api/analysis.py` — endpoint-level data flow

Machine floats of the source are idealised as exact rationals (ℚ), except the
logarithmic pitch mathematics which lives in ℝ.  Python `int()` truncation,
Python slice semantics and Python keyword-call semantics are modelled
explicitly where the source relies on them.
-/

namespace MusicBackend

/-! ### Python primitives -/

/-- Python `int()` applied to an exact rational: truncation toward zero. -/
def truncToInt (q : ℚ) : ℤ :=
  if 0 ≤ q then ⌊q⌋ else ⌈q⌉

/-- Normalisation of one Python slice bound against a sequence of length `n`:
a negative index counts from the end, and the result is clamped into `[0, n]`. -/
def pyNorm (n : ℕ) (i : ℤ) : ℕ :=
  (if i < 0 then (n : ℤ) + i else i).toNat ⊓ n

/-- Python slice `l[i:j]` (step 1) on a list, with full negative-index
semantics. -/
def pySlice (l : List α) (i j : ℤ) : List α :=
  (l.take (pyNorm l.length j)).drop (pyNorm l.length i)

/-! ### Python string primitives (over character lists) -/

/-- The characters Python `str.strip()` removes. -/
def pyIsSpace (c : Char) : Bool :=
  c == ' ' || c == '\t' || c == '\n' || c == '\x0d' ||
    c == Char.ofNat 11 || c == Char.ofNat 12

/-- Python `str.strip()`. -/
def pyStrip (cs : List Char) : List Char :=
  ((cs.dropWhile pyIsSpace).reverse.dropWhile pyIsSpace).reverse

/-- Python `str.lower()` (ASCII case mapping, all inputs here are ASCII). -/
def pyLower (cs : List Char) : List Char :=
  cs.map Char.toLower

/-- Worker for `str.split(",")`: `acc` is the current piece, reversed. -/
def splitCommaAux : List Char → List Char → List (List Char)
  | [], acc => [acc.reverse]
  | c :: cs, acc =>
    if c == ',' then acc.reverse :: splitCommaAux cs []
    else splitCommaAux cs (c :: acc)

/-- Python `str.split(",")` (keeps empty pieces, as Python does). -/
def splitComma (cs : List Char) : List (List Char) :=
  splitCommaAux cs []

/-! ### `app/config.py` — settings parsing -/

/-- `Settings.parse_audio_formats` (config.py): on a string input, split on
commas and map `str.strip().lower()` over the pieces:
`[format.strip().lower() for format in v.split(",")]`. -/
def parse_audio_formats (s : String) : List String :=
  (splitComma s.data).map (fun f => String.mk (pyLower (pyStrip f)))

/-- `Settings.parse_cors_origins` (config.py): on a string input, split on
commas and map `str.strip()` over the pieces:
`[origin.strip() for origin in v.split(",")]`.  Note the source does NOT
lower-case here. -/
def parse_cors_origins (s : String) : List String :=
  (splitComma s.data).map (fun origin => String.mk (pyStrip origin))

/-- The normalisation the claim describes for BOTH settings: comma-split,
each element trimmed and lower-cased. -/
def claimedNormalize (s : String) : List String :=
  (splitComma s.data).map (fun x => String.mk (pyLower (pyStrip x)))

/-- The amended normalisation for CORS origins: comma-split, each element
trimmed of surrounding whitespace, case preserved. -/
def claimedTrimOnly (s : String) : List String :=
  (splitComma s.data).map (fun x => String.mk (pyStrip x))

/-! ### `app/utils/dependencies.py` — upload validation -/

/-- Default `settings.allowed_audio_formats` (config.py). -/
def allowed_audio_formats : List String := ["wav", "mp3", "m4a", "flac", "ogg", "webm"]

/-- `settings.max_upload_size_bytes` = 50 MB (config.py). -/
def max_upload_size_bytes : ℕ := 50 * 1024 * 1024

/-- The fixed extension→MIME table `allowed_mime_types` (dependencies.py). -/
def allowed_mime_types : List (String × String) :=
  [("wav", "audio/wav"), ("mp3", "audio/mpeg"), ("m4a", "audio/mp4"),
   ("flac", "audio/flac"), ("ogg", "audio/ogg"), ("webm", "audio/webm")]

/-- `allowed_mime_types.values()`. -/
def mimeValues : List String := allowed_mime_types.map Prod.snd

/-- The MIME type the table assigns to a given extension. -/
def mimeLookup (ext : String) : Option String :=
  (allowed_mime_types.find? (fun p => p.1 == ext)).map Prod.snd

/-- Index of the last '.' in a character list, provided some earlier character
is not a '.' (CPython `genericpath._splitext`: leading dots never start an
extension). -/
def lastExtDot (cs : List Char) : Option ℕ :=
  (((List.range cs.length).filter (fun i => cs.getD i ' ' == '.')).getLast?).bind
    (fun i => if (List.range i).any (fun j => cs.getD j '.' ≠ '.') then some i else none)

/-- `os.path.splitext(name)[1]` for a plain filename (no path separators):
the extension including its dot, or `""`. -/
def splitextExt (cs : List Char) : List Char :=
  match lastExtDot cs with
  | none => []
  | some i => cs.drop i

/-- `os.path.splitext(filename)[1].lower().lstrip('.')` as used in
`validate_audio_file` (dependencies.py) and `upload_recording` (recording.py). -/
def fileExtension (name : String) : String :=
  String.mk ((pyLower (splitextExt name.data)).dropWhile (fun c => c == '.'))

/-- The attributes of a FastAPI `UploadFile` that `validate_audio_file` reads. -/
structure Upload where
  size : Option ℕ
  filename : Option String
  content_type : Option String
deriving DecidableEq, Repr

/-- The four rejection outcomes of `validate_audio_file`. -/
inductive UploadError where
  | tooLarge       -- 413, size exceeds the byte ceiling
  | noFilename     -- 400, missing filename
  | badFormat      -- 400, extension not in the allowed-format set
  | badContentType -- 400, declared content type rejected
deriving DecidableEq, Repr

/-- Python truthiness of `file.filename` (None or empty string are falsy). -/
def filenameFalsy : Option String → Bool
  | none => true
  | some s => s == ""

/-- The guard `if file.size and file.size > settings.max_upload_size_bytes`
(a size of 0 is falsy and skips the check). -/
def sizeTooLarge : Option ℕ → Bool
  | some n => decide (n ≠ 0 ∧ max_upload_size_bytes < n)
  | none => false

/-- The guard `if file.content_type and file.content_type not in
allowed_mime_types.values()` — membership is tested against the VALUES of the
table only; the file's extension plays no role here. -/
def contentTypeRejected : Option String → Bool
  | some c => c != "" && !(mimeValues.contains c)
  | none => false

/-- `validate_audio_file` (dependencies.py).  Checks run in source order:
size ceiling, filename presence, extension membership, declared content type. -/
def validate_audio_file (u : Upload) : Except UploadError Unit :=
  if sizeTooLarge u.size then
    .error .tooLarge
  else if filenameFalsy u.filename then
    .error .noFilename
  else if !(allowed_audio_formats.contains (fileExtension (u.filename.getD ""))) then
    .error .badFormat
  else if contentTypeRejected u.content_type then
    .error .badContentType
  else
    .ok ()

/-! ### `app/services/audio_processor.py` — `extract_segment`

The waveform is modelled as a list of frames (`List α`): for mono audio a
frame is one sample, for multi-channel audio a frame is the column of channel
samples at one time index — the source slices axis 0 (mono) or axis 1
(multi-channel), which is exactly the frame axis. -/

/-- `AudioProcessor.extract_segment` (audio_processor.py): converts the times
to sample indices with `int(time * sample_rate)`, slices the waveform with a
raw Python slice `data[start_sample:end_sample]` (the subsequent re-clamping
of `start_sample`/`end_sample` in the source is dead code: the clamped values
are never used), and returns the slice together with
`actual_duration = slice_length / sample_rate`. -/
def extract_segment (data : List α) (sample_rate : ℕ)
    (start_time end_time : ℚ) : List α × ℚ :=
  let start_sample : ℤ := truncToInt (start_time * sample_rate)
  let end_sample : ℤ := truncToInt (end_time * sample_rate)
  let segment_data := pySlice data start_sample end_sample
  (segment_data, (segment_data.length : ℚ) / (sample_rate : ℚ))

/-- The behaviour the claim describes: clamp both indices into
`[0, total_samples]`, clamp the end index up to the clamped start, slice that
exact range, and report `extracted / sample_rate`. -/
def claimedExtractSegment (data : List α) (sample_rate : ℕ)
    (start_time end_time : ℚ) : List α × ℚ :=
  let n : ℤ := data.length
  let start_sample : ℤ := truncToInt (start_time * sample_rate)
  let end_sample : ℤ := truncToInt (end_time * sample_rate)
  let startC : ℤ := max 0 (min start_sample n)
  let endC : ℤ := max startC (max 0 (min end_sample n))
  let segment_data := (data.take endC.toNat).drop startC.toNat
  (segment_data, (segment_data.length : ℚ) / (sample_rate : ℚ))

/-! ### `app/utils/security.py` — password hashing and user resolution

Passwords are modelled by their UTF-8 byte encodings (`List ℕ`): the source
immediately calls `.encode('utf-8')` on every password.  The external bcrypt
primitive is an abstract `Bcrypt` record; `checkpw` returning `none` models
the primitive raising, which `verify_password` converts to `False`. -/

/-- The external bcrypt primitive: `hashpw password salt` and
`checkpw password hash` (the latter `none` when the comparison raises). -/
structure Bcrypt where
  hashpw : List ℕ → List ℕ → List ℕ
  checkpw : List ℕ → List ℕ → Option Bool

/-- The 72-byte truncation both `get_password_hash` and `verify_password`
apply: `if len(password_bytes) > 72: password_bytes = password_bytes[:72]`. -/
def bcryptTruncate (b : List ℕ) : List ℕ :=
  if b.length > 72 then b.take 72 else b

/-- `get_password_hash` (security.py): truncate to 72 bytes, then
`bcrypt.hashpw(password_bytes, salt)`. -/
def get_password_hash (B : Bcrypt) (salt pw : List ℕ) : List ℕ :=
  B.hashpw (bcryptTruncate pw) salt

/-- `verify_password` (security.py): truncate to 72 bytes, then
`bcrypt.checkpw` inside `try/except: return False`. -/
def verify_password (B : Bcrypt) (pw hash : List ℕ) : Bool :=
  (B.checkpw (bcryptTruncate pw) hash).getD false

/-- The fields of a `User` row read by the two resolution dependencies. -/
structure AuthUser where
  id : ℤ
  is_active : Bool
deriving DecidableEq, Repr

/-- Outcome of `jwt.decode` followed by `payload.get("sub")`:
`err` is a raised `JWTError`; `ok sub` is a decoded payload whose subject
claim is `sub` (possibly missing). -/
inductive DecodeResult where
  | err
  | ok (sub : Option String)

/-- `get_current_user` (security.py): any failure — decode error, missing
subject, unparsable subject, unknown user id — raises the uniform 401
(modelled as `Except.error ()`).  NOTE: no `is_active` check here. -/
def get_current_user (decode : DecodeResult) (parseInt : String → Option ℤ)
    (dbGet : ℤ → Option AuthUser) : Except Unit AuthUser :=
  match decode with
  | .err => .error ()
  | .ok none => .error ()
  | .ok (some s) =>
    match parseInt s with
    | none => .error ()
    | some uid =>
      match dbGet uid with
      | none => .error ()
      | some u => .ok u

/-- `get_optional_user` (security.py): same decoding steps but every failure
returns `None`, and the final line is
`return user if user and user.is_active else None`. -/
def get_optional_user (credentials : Option DecodeResult)
    (parseInt : String → Option ℤ) (dbGet : ℤ → Option AuthUser) : Option AuthUser :=
  match credentials with
  | none => none
  | some .err => none
  | some (.ok none) => none
  | some (.ok (some s)) =>
    match parseInt s with
    | none => none
    | some uid =>
      match dbGet uid with
      | none => none
      | some u => if u.is_active then some u else none

/-! ### `app/services/file_service.py` — `cleanup_expired_files`

A `Segment` row is modelled with its id, optional `expires_at` timestamp,
whether a vocal file is present, and three oracles saying whether each
deletion step would raise (file-system / database failures are environmental
inputs of the code). -/

/-- A Segment row together with the environment's failure behaviour for it. -/
structure SegRow where
  id : ℕ
  expires_at : Option ℤ
  hasVocal : Bool
  mainDeleteFails : Bool
  vocalDeleteFails : Bool
  dbDeleteFails : Bool
deriving DecidableEq, Repr

/-- The `Segment.expires_at < datetime.utcnow()` filter of the cleanup query
(a row with NULL `expires_at` never satisfies the comparison). -/
def segExpired (now : ℤ) (s : SegRow) : Bool :=
  match s.expires_at with
  | some t => t < now
  | none => false

/-- One trip through the `try` block of `cleanup_expired_files`: delete the
main file, delete the vocal file when present, delete the database row.  Any
raised failure aborts the block (`Except.error`). -/
def handleSegment (s : SegRow) : Except Unit Unit := do
  if s.mainDeleteFails then throw ()
  if s.hasVocal then
    if s.vocalDeleteFails then throw ()
  if s.dbDeleteFails then throw ()
  return ()

/-- The `for segment in expired_segments` loop: on success the counter is
incremented and the row was deleted; on failure (`except Exception:
continue`) the segment is skipped and the loop continues. Returns
(deleted_count, ids of rows actually deleted). -/
def cleanupLoop : List SegRow → ℕ × List ℕ
  | [] => (0, [])
  | s :: rest =>
    match handleSegment s with
    | .ok _ => ((cleanupLoop rest).1 + 1, s.id :: (cleanupLoop rest).2)
    | .error _ => cleanupLoop rest

/-- Whether the `try` block for one segment runs to completion. -/
def segHandleOk (s : SegRow) : Bool :=
  match handleSegment s with
  | .ok _ => true
  | .error _ => false

/-- `cleanup_expired_files` (file_service.py): select the expired segments,
run the loop, commit once (`await db.commit()`), and return the count.
Result: (returned count, ids of deleted rows, number of commits issued). -/
def cleanup_expired_files (now : ℤ) (segments : List SegRow) : ℕ × List ℕ × ℕ :=
  let expired := segments.filter (segExpired now)
  let (count, deleted) := cleanupLoop expired
  (count, deleted, 1)

/-! ### `app/api/recording.py` ↔ `FileService.create_recording_record` —
the keyword call that creates the Recording row

Python keyword-call semantics: a call `f(k1=v1, ..., kn=vn)` to a function
without a `**kwargs` catch-all raises `TypeError` unless every keyword names
a declared parameter. -/

/-- The declared parameter names of `FileService.create_recording_record`
(file_service.py, signature lines 90–100).  There is no `file_type`
parameter and no `**kwargs`. -/
def createRecordingRecordParams : List String :=
  ["db", "user_id", "segment_id", "file_path", "vocal_file_path",
   "duration", "original_filename", "file_format", "sample_rate", "channels"]

/-- The keyword arguments passed at the call site in `upload_recording`
(recording.py lines 163–175). -/
def uploadRecordingCallKwargs : List String :=
  ["db", "user_id", "segment_id", "file_path", "vocal_file_path",
   "duration", "original_filename", "file_format", "file_type",
   "sample_rate", "channels"]

/-- Whether a Python keyword call binds: every supplied keyword must name a
declared parameter (the callee declares no `**kwargs`). -/
def pyKwCallBinds (params kwargs : List String) : Bool :=
  kwargs.all (params.contains ·)

/-! ### `app/services/analyzer.py` — duration warning, pitch comparison,
composite scoring -/

/-- The duration-warning payload built in `analyze_singing_similarity`
(analyzer.py lines 54–60), with its numeric content kept exact. -/
structure DurationWarning where
  typ : String
  userDuration : ℚ
  refDuration : ℚ
  coverageRatio : ℚ
deriving DecidableEq, Repr

/-- `duration_ratio = user_duration / ref_duration if ref_duration > 0 else 0`. -/
def duration_ratio (refDuration userDuration : ℚ) : ℚ :=
  if 0 < refDuration then userDuration / refDuration else 0

/-- The warning attached when `duration_ratio < 0.5` (analyzer.py 54–60);
no warning otherwise. -/
def mkDurationWarning (refDuration userDuration : ℚ) : Option DurationWarning :=
  if duration_ratio refDuration userDuration < 1/2 then
    some { typ := "critical", userDuration := userDuration,
           refDuration := refDuration,
           coverageRatio := duration_ratio refDuration userDuration }
  else none

/-- Banker's rounding of an exact rational to an integer (Python `round`). -/
def roundHalfEven (q : ℚ) : ℤ :=
  if Int.fract q < 1/2 then ⌊q⌋
  else if 1/2 < Int.fract q then ⌊q⌋ + 1
  else if ⌊q⌋ % 2 = 0 then ⌊q⌋ else ⌊q⌋ + 1

/-- Python `round(x, 2)` on an exact rational. -/
def pyRound2 (q : ℚ) : ℚ :=
  (roundHalfEven (q * 100) : ℚ) / 100

/-- `overall_score` (analyzer.py lines 162–167):
`pitch*0.4 + rhythm*0.2 + tone*0.2 + timing*0.2`. -/
def overall_score (pitch_score rhythm_score tone_score timing_score : ℚ) : ℚ :=
  pitch_score * 0.4 + rhythm_score * 0.2 + tone_score * 0.2 + timing_score * 0.2

/-- The five headline score fields of the result dictionary
(analyzer.py lines 170–175), every one rounded to 2 decimal places. -/
structure ReportedScores where
  overall : ℚ
  pitch : ℚ
  rhythm : ℚ
  tone : ℚ
  timing : ℚ
deriving DecidableEq, Repr

/-- Construction of the reported headline scores (analyzer.py 162–175):
the composite is computed from the four sub-scores and every reported value
passes through `round(_, 2)`. -/
def mkReportedScores (pitch_score rhythm_score tone_score timing_score : ℚ) :
    ReportedScores :=
  { overall := pyRound2 (overall_score pitch_score rhythm_score tone_score timing_score)
    pitch := pyRound2 pitch_score
    rhythm := pyRound2 rhythm_score
    tone := pyRound2 tone_score
    timing := pyRound2 timing_score }

/-- The parts of the analyzer's result dictionary that `analyze_recording`
(analysis.py) consumes: the headline scores and the top-level
`duration_warning` entry (absent when no warning was generated). -/
structure AnalysisResult where
  scores : ReportedScores
  duration_warning : Option DurationWarning
deriving DecidableEq, Repr

/-- The `Attempt` row fields relevant here, as constructed by the
`Attempt(...)` call in `analyze_recording` (analysis.py lines 125–135). -/
structure AttemptRow where
  user_id : ℕ
  segment_id : ℕ
  recording_id : ℕ
  overall_score : ℚ
  pitch_accuracy : ℚ
  rhythm_accuracy : ℚ
  tone_similarity : ℚ
  timing_accuracy : ℚ
  duration_warning : Option DurationWarning
  analysis_version : String
deriving DecidableEq, Repr

/-- The `Attempt(...)` constructor call in `analyze_recording` (analysis.py
125–135): it passes the five scores and `detailed_analysis` but does NOT pass
`duration_warning`, so that column keeps its NULL default; `analysis_version`
keeps its `"1.0"` default. -/
def mkAttempt (user_id segment_id recording_id : ℕ) (res : AnalysisResult) :
    AttemptRow :=
  { user_id := user_id
    segment_id := segment_id
    recording_id := recording_id
    overall_score := res.scores.overall
    pitch_accuracy := res.scores.pitch
    rhythm_accuracy := res.scores.rhythm
    tone_similarity := res.scores.tone
    timing_accuracy := res.scores.timing
    duration_warning := none
    analysis_version := "1.0" }

/-! #### The time-synchronized pitch comparison (analyzer.py lines 87–128)

Pitch-contour samples, the voiced flags, times and durations are exact
rationals; only the semitone difference itself needs the real logarithm. -/

/-- `|12 * log2(p_user / p_ref)|`. -/
noncomputable def semiDiff (p_user p_ref : ℚ) : ℝ :=
  |12 * Real.logb 2 ((p_user : ℝ) / (p_ref : ℝ))|

/-- The per-file inputs of the pitch loop: pitch contours, voiced flags and
the physical user duration. -/
structure PitchCtx where
  f0_ref : List ℚ
  voiced_ref : List Bool
  f0_user : List ℚ
  voiced_user : List Bool
  user_duration : ℚ

/-- `current_time = idx_ref * hop_length / sr` with `hop_length = 512`,
`sr = 22050`. -/
def pairTime (idx_ref : ℕ) : ℚ :=
  (idx_ref : ℚ) * 512 / 22050

/-- `p_ref`: the reference pitch at the pair's reference frame — the contour
value when the frame index is in range and voiced, else `0.0`. -/
def pRef (ctx : PitchCtx) (pair : ℕ × ℕ) : ℚ :=
  if pair.1 < ctx.voiced_ref.length ∧ ctx.voiced_ref.getD pair.1 false then
    ctx.f0_ref.getD pair.1 0
  else 0

/-- `p_user`: `None` once `current_time` exceeds the physical user duration,
otherwise the user contour value when in range and voiced, else `0.0`. -/
def pUser (ctx : PitchCtx) (pair : ℕ × ℕ) : Option ℚ :=
  if pairTime pair.1 ≤ ctx.user_duration then
    some (if pair.2 < ctx.voiced_user.length ∧ ctx.voiced_user.getD pair.2 false then
            ctx.f0_user.getD pair.2 0
          else 0)
  else none

/-- The condition of `if p_ref > 0 and p_user is not None and p_user > 0`. -/
def bothPitchesPositive (ctx : PitchCtx) (pair : ℕ × ℕ) : Bool :=
  decide (0 < pRef ctx pair) &&
    (match pUser ctx pair with
     | some pu => decide (0 < pu)
     | none => false)

/-- One sampled point of the loop body: the recorded semitone difference,
whether it was appended to `semitone_errors`, and whether `notes_matched`
was incremented. -/
structure PitchPoint where
  time : ℚ
  ref_pitch : ℚ
  user_pitch : Option ℚ
  diff : ℝ
  appended : Bool
  matched : Bool
deriving Inhabited

open Classical in
/-- The loop body for one alignment pair (analyzer.py 93–128): the semitone
difference is computed only when both pitches are present and strictly
positive (else it stays `0.0`); in that case it is appended to
`semitone_errors`, and `notes_matched` is incremented exactly when
`diff_semi < 0.5`. -/
noncomputable def pitchStep (ctx : PitchCtx) (pair : ℕ × ℕ) : PitchPoint :=
  let p_ref := pRef ctx pair
  let p_user := pUser ctx pair
  if bothPitchesPositive ctx pair then
    let d := semiDiff ((p_user.getD 0)) p_ref
    { time := pairTime pair.1, ref_pitch := p_ref, user_pitch := p_user,
      diff := d, appended := true, matched := decide (d < 1/2) }
  else
    { time := pairTime pair.1, ref_pitch := p_ref, user_pitch := p_user,
      diff := 0, appended := false, matched := false }

/-- Python `path[::5]`: every 5th element starting from the head. -/
def every5th : List α → List α
  | [] => []
  | x :: xs => x :: every5th (xs.drop 4)
termination_by l => l.length
decreasing_by
  simp only [List.length_drop, List.length_cons]
  omega

/-- The whole `for idx_ref, idx_user in path[::5]` loop, processing an
already-sampled pair list left to right.  Returns the emitted points, the
accumulated `semitone_errors` (in order), and `notes_matched`. -/
noncomputable def pitchLoop (ctx : PitchCtx) :
    List (ℕ × ℕ) → List PitchPoint × List ℝ × ℕ
  | [] => ([], [], 0)
  | pair :: rest =>
    let st := pitchStep ctx pair
    let r := pitchLoop ctx rest
    (st :: r.1, (if st.appended then [st.diff] else []) ++ r.2.1,
     (if st.matched then 1 else 0) + r.2.2)

/-- The pitch-comparison pass over a DTW path: sample every 5th pair, then
run the loop. -/
noncomputable def analyzePitch (ctx : PitchCtx) (path : List (ℕ × ℕ)) :
    List PitchPoint × List ℝ × ℕ :=
  pitchLoop ctx (every5th path)

/-! ## Theorems -/

/-- C1: the recording-upload endpoint passes a `file_type` keyword argument
to `FileService.create_recording_record`, but that function declares no such
parameter (and no `**kwargs`), so the Python call raises `TypeError`: no
upload request can succeed, and no Recording row recording the submitted
`file_type` is ever created by this call. -/
theorem C1_create_recording_call_raises_type_error :
    pyKwCallBinds createRecordingRecordParams uploadRecordingCallKwargs = false ∧
    "file_type" ∈ uploadRecordingCallKwargs ∧
    "file_type" ∉ createRecordingRecordParams := by
  refine ⟨by decide, by decide, by decide⟩

/-- C2: on an analysis run with poor coverage (ref 100.0 s, user 40.0 s,
ratio 0.4 < 0.5) the analyzer does generate a duration warning, yet the
`Attempt(...)` constructor call in `analyze_recording` never passes it, so
the created Attempt's `duration_warning` column keeps its NULL default. -/
theorem C2_attempt_never_carries_duration_warning :
    (mkDurationWarning 100 40).isSome = true ∧
    (mkAttempt 1 2 3 { scores := mkReportedScores 80 70 60 90,
                       duration_warning := mkDurationWarning 100 40 }).duration_warning
      = none := by
  constructor
  · simp only [mkDurationWarning, duration_ratio]
    norm_num
  · rfl

/-- C8: the composite equals
`pitch*0.4 + rhythm*0.2 + tone*0.2 + timing*0.2`, every reported score is
rounded to 2 decimal places, and component scores 80/70/60/90 yield an
overall score of exactly 76.0. -/
theorem C8_overall_score_formula :
    (∀ p r t ti : ℚ,
      (mkReportedScores p r t ti).overall =
          pyRound2 (p * (4/10) + r * (2/10) + t * (2/10) + ti * (2/10)) ∧
        (mkReportedScores p r t ti).pitch = pyRound2 p ∧
        (mkReportedScores p r t ti).rhythm = pyRound2 r ∧
        (mkReportedScores p r t ti).tone = pyRound2 t ∧
        (mkReportedScores p r t ti).timing = pyRound2 ti) ∧
    mkReportedScores 80 70 60 90 =
      { overall := 76, pitch := 80, rhythm := 70, tone := 60, timing := 90 } := by
  constructor
  · intro p r t ti
    refine ⟨?_, rfl, rfl, rfl, rfl⟩
    have h : overall_score p r t ti =
        p * (4/10) + r * (2/10) + t * (2/10) + ti * (2/10) := by
      unfold overall_score; norm_num
    simp only [mkReportedScores, h]
  · have hov : overall_score 80 70 60 90 = 76 := by
      unfold overall_score; norm_num
    have h76 : pyRound2 76 = 76 := by
      simp only [pyRound2, roundHalfEven]
      norm_num [Int.fract]
    have h80 : pyRound2 80 = 80 := by
      simp only [pyRound2, roundHalfEven]
      norm_num [Int.fract]
    have h70 : pyRound2 70 = 70 := by
      simp only [pyRound2, roundHalfEven]
      norm_num [Int.fract]
    have h60 : pyRound2 60 = 60 := by
      simp only [pyRound2, roundHalfEven]
      norm_num [Int.fract]
    have h90 : pyRound2 90 = 90 := by
      simp only [pyRound2, roundHalfEven]
      norm_num [Int.fract]
    simp [mkReportedScores, hov, h76, h80, h70, h60, h90]

/-- C9 counterexample: a CORS-origins string with upper-case characters is
only trimmed, not lower-cased, by `Settings.parse_cors_origins`, refuting
the claim that both settings are lower-cased. -/
theorem C9_counterexample :
    parse_cors_origins " HTTP://Localhost:3000 " ≠
      claimedNormalize " HTTP://Localhost:3000 " := by
  decide

/-- C9 amended: comma-separated allowed-audio-formats strings are split,
trimmed and lower-cased; comma-separated CORS-origins strings are split and
trimmed only (case preserved). -/
theorem C9_amended_parsing (s : String) :
    parse_audio_formats s = claimedNormalize s ∧
    parse_cors_origins s = claimedTrimOnly s :=
  ⟨rfl, rfl⟩

/-- C10: `get_current_user` performs no active-account check — a valid token
whose subject resolves to an existing user is accepted even when
`is_active` is false — while `get_optional_user` maps the same inactive user
to an absent result. -/
theorem C10_inactive_user_resolution
    (parseInt : String → Option ℤ) (dbGet : ℤ → Option AuthUser)
    (s : String) (uid : ℤ) (u : AuthUser)
    (hparse : parseInt s = some uid) (hdb : dbGet uid = some u)
    (hinactive : u.is_active = false) :
    get_current_user (.ok (some s)) parseInt dbGet = .ok u ∧
    get_optional_user (some (.ok (some s))) parseInt dbGet = none := by
  simp [get_current_user, get_optional_user, hparse, hdb, hinactive]

/-- Witness for C10 at a concrete inactive user. -/
theorem C10_witness :
    get_current_user (.ok (some "1")) (fun _ => some 1)
        (fun _ => some { id := 1, is_active := false }) =
      .ok { id := 1, is_active := false } ∧
    get_optional_user (some (.ok (some "1"))) (fun _ => some 1)
        (fun _ => some { id := 1, is_active := false }) = none :=
  C10_inactive_user_resolution (fun _ => some 1)
    (fun _ => some { id := 1, is_active := false }) "1" 1
    { id := 1, is_active := false } rfl rfl rfl

/-- `bcryptTruncate` is plain 72-byte truncation. -/
theorem bcryptTruncate_eq_take (b : List ℕ) : bcryptTruncate b = b.take 72 := by
  unfold bcryptTruncate
  split
  · rfl
  · rename_i h
    exact (List.take_of_length_le (by omega)).symm

/-- C6: passwords whose UTF-8 encodings agree on their first 72 bytes hash
and verify identically; a hash produced from one verifies against the other
(given the bcrypt round-trip property); and `verify_password` returns false
rather than raising when the underlying comparison fails. -/
theorem C6_truncated_passwords_equivalent (B : Bcrypt) (salt p1 p2 hash : List ℕ)
    (hagree : p1.take 72 = p2.take 72) :
    get_password_hash B salt p1 = get_password_hash B salt p2 ∧
    verify_password B p1 hash = verify_password B p2 hash ∧
    ((∀ x s, B.checkpw x (B.hashpw x s) = some true) →
      verify_password B p2 (get_password_hash B salt p1) = true) ∧
    (B.checkpw (bcryptTruncate p1) hash = none →
      verify_password B p1 hash = false) := by
  have htr : bcryptTruncate p1 = bcryptTruncate p2 := by
    rw [bcryptTruncate_eq_take, bcryptTruncate_eq_take, hagree]
  refine ⟨?_, ?_, ?_, ?_⟩
  · unfold get_password_hash; rw [htr]
  · unfold verify_password; rw [htr]
  · intro hrt
    unfold verify_password get_password_hash
    rw [← htr, hrt]
    rfl
  · intro hexc
    unfold verify_password
    rw [hexc]
    rfl

/-- A concrete bcrypt instance for the C6 witness. -/
def bcryptW : Bcrypt :=
  { hashpw := fun x _ => 0 :: x
    checkpw := fun x h => some (decide (h = 0 :: x)) }

/-- Witness for C6: a hash of `[5]` verifies under `bcryptW`. -/
theorem C6_witness :
    verify_password bcryptW [5] (get_password_hash bcryptW [9] [5]) = true :=
  (C6_truncated_passwords_equivalent bcryptW [9] [5] [5] [] rfl).2.2.1
    (fun x s => by simp [bcryptW])

/-- `truncToInt` is the identity on integral rationals. -/
theorem truncToInt_intCast (z : ℤ) : truncToInt (z : ℚ) = z := by
  unfold truncToInt
  split <;> simp

/-- `truncToInt` preserves nonnegativity. -/
theorem truncToInt_nonneg {q : ℚ} (h : 0 ≤ q) : 0 ≤ truncToInt q := by
  unfold truncToInt
  rw [if_pos h]
  exact Int.floor_nonneg.mpr h

/-- Dropping `a` from a take-prefix is unaffected by growing the prefix bound
up to `a`. -/
theorem take_drop_max (l : List α) (a b : ℕ) :
    (l.take b).drop a = (l.take (max a b)).drop a := by
  rcases Nat.le_total a b with h | h
  · rw [Nat.max_eq_right h]
  · rw [Nat.max_eq_left h]
    rw [List.drop_eq_nil_of_le (le_trans (List.length_take_le b l) h),
      List.drop_eq_nil_of_le (List.length_take_le a l)]

/-- C3 counterexample: on a 4-sample waveform at rate 1 with
`start_time = -2`, `end_time = 4`, the code's raw Python slice interprets the
negative start index from the end of the list (yielding 2 samples), while the
claimed clamping into `[0, total_samples]` would yield all 4 samples — the
claimed behaviour is not what the code computes. -/
theorem C3_counterexample :
    extract_segment ([0, 1, 2, 3] : List ℤ) 1 (-2) 4 ≠
      claimedExtractSegment ([0, 1, 2, 3] : List ℤ) 1 (-2) 4 := by
  have h1 : truncToInt ((-2 : ℚ) * ((1 : ℕ) : ℚ)) = -2 := by
    rw [show ((-2 : ℚ) * ((1 : ℕ) : ℚ)) = ((-2 : ℤ) : ℚ) by norm_num]
    exact truncToInt_intCast (-2)
  have h2 : truncToInt ((4 : ℚ) * ((1 : ℕ) : ℚ)) = 4 := by
    rw [show ((4 : ℚ) * ((1 : ℕ) : ℚ)) = ((4 : ℤ) : ℚ) by norm_num]
    exact truncToInt_intCast 4
  intro h
  have hfst := congrArg Prod.fst h
  simp only [extract_segment, claimedExtractSegment, h1, h2] at hfst
  exact absurd hfst (by decide)

/-- C3 amended: for nonnegative `start_time` and `end_time` (the only values
the API layer can produce, since request validation enforces
`start_time ≥ 0` and `end_time > start_time`), the raw Python slice agrees
with the claimed clamped slice, so `extract_segment` clamps both truncated
indices into `[0, total_samples]` (end clamped to be ≥ the clamped start),
slices exactly that range and reports `extracted / sample_rate`.  For
negative times the slice instead uses Python from-the-end indexing. -/
theorem C3_amended (data : List α) (sample_rate : ℕ) (start_time end_time : ℚ)
    (hs : 0 ≤ start_time) (he : 0 ≤ end_time) :
    extract_segment data sample_rate start_time end_time =
      claimedExtractSegment data sample_rate start_time end_time := by
  have hs0 : 0 ≤ truncToInt (start_time * (sample_rate : ℚ)) :=
    truncToInt_nonneg (mul_nonneg hs (by positivity))
  have he0 : 0 ≤ truncToInt (end_time * (sample_rate : ℚ)) :=
    truncToInt_nonneg (mul_nonneg he (by positivity))
  simp only [extract_segment, claimedExtractSegment]
  set i := truncToInt (start_time * (sample_rate : ℚ)) with hi
  set j := truncToInt (end_time * (sample_rate : ℚ)) with hj
  set n := data.length with hn
  have hsl : pySlice data i j =
      (data.take (max (max 0 (min i (n : ℤ))) (max 0 (min j (n : ℤ)))).toNat).drop
        (max 0 (min i (n : ℤ))).toNat := by
    have e1 : (max 0 (min i (n : ℤ))).toNat = i.toNat ⊓ n := by omega
    have e2 : (max (max 0 (min i (n : ℤ))) (max 0 (min j (n : ℤ)))).toNat =
        max (i.toNat ⊓ n) (j.toNat ⊓ n) := by omega
    have hif1 : (if i < 0 then (n : ℤ) + i else i) = i := if_neg (by omega)
    have hif2 : (if j < 0 then (n : ℤ) + j else j) = j := if_neg (by omega)
    unfold pySlice pyNorm
    rw [← hn, hif1, hif2, e1, e2]
    exact take_drop_max data (i.toNat ⊓ n) (j.toNat ⊓ n)
  rw [hsl]

/-- Witness for C3 amended: at nonnegative bounds 1 s–3 s on a 4-sample
rate-1 waveform, code and claimed behaviour coincide and the slice holds
samples 1 and 2. -/
theorem C3_witness :
    extract_segment ([0, 1, 2, 3] : List ℤ) 1 1 3 =
      claimedExtractSegment ([0, 1, 2, 3] : List ℤ) 1 1 3 ∧
    (extract_segment ([0, 1, 2, 3] : List ℤ) 1 1 3).1 = [1, 2] := by
  refine ⟨C3_amended _ _ _ _ (by norm_num) (by norm_num), ?_⟩
  have h1 : truncToInt ((1 : ℚ) * ((1 : ℕ) : ℚ)) = 1 := by
    rw [show ((1 : ℚ) * ((1 : ℕ) : ℚ)) = ((1 : ℤ) : ℚ) by norm_num]
    exact truncToInt_intCast 1
  have h3 : truncToInt ((3 : ℚ) * ((1 : ℕ) : ℚ)) = 3 := by
    rw [show ((3 : ℚ) * ((1 : ℕ) : ℚ)) = ((3 : ℤ) : ℚ) by norm_num]
    exact truncToInt_intCast 3
  simp only [extract_segment, h1, h3]
  decide

/-- C4 counterexample: an upload named `track.mp3` declaring content type
`audio/wav` is ACCEPTED by `validate_audio_file` (the check only tests
membership in the MIME table's value set), although the table assigns
`audio/mpeg` — not `audio/wav` — to the `mp3` extension, so the claimed
extension-matching rule would reject it. -/
theorem C4_counterexample :
    validate_audio_file { size := some 10, filename := some "track.mp3",
                          content_type := some "audio/wav" } = .ok () ∧
    mimeLookup (fileExtension "track.mp3") = some "audio/mpeg" := by
  exact ⟨rfl, by decide⟩

/-- C4 amended: for an upload that passes the size, filename and extension
checks and declares a non-empty content type, validation rejects with the
400 content-type error if and only if the declared content type is not one
of the six MIME values of the table — irrespective of whether it matches the
extension's own table entry. -/
theorem C4_amended (u : Upload) (c : String)
    (hsize : sizeTooLarge u.size = false)
    (hname : filenameFalsy u.filename = false)
    (hext : allowed_audio_formats.contains (fileExtension (u.filename.getD "")) = true)
    (hct : u.content_type = some c) (hc : c ≠ "") :
    (validate_audio_file u = .error .badContentType ↔ mimeValues.contains c = false) ∧
    (validate_audio_file u = .ok () ↔ mimeValues.contains c = true) := by
  have hcr : contentTypeRejected u.content_type = !(mimeValues.contains c) := by
    rw [hct]
    simp [contentTypeRejected, hc]
  unfold validate_audio_file
  rw [hsize, hname, hext, hcr]
  cases hmv : mimeValues.contains c <;> simp

/-- Witness for C4 amended: `track.mp3` with declared content type
`text/html` is rejected with the content-type error. -/
theorem C4_witness :
    validate_audio_file { size := some 10, filename := some "track.mp3",
                          content_type := some "text/html" } = .error .badContentType :=
  (C4_amended { size := some 10, filename := some "track.mp3",
                content_type := some "text/html" } "text/html"
      (by decide) (by decide) (by decide) rfl (by decide)).1.mpr (by decide)

/-- The loop of `cleanup_expired_files` returns the count and ids of exactly
the processed segments whose `try` block completed. -/
theorem cleanupLoop_spec (l : List SegRow) :
    cleanupLoop l = ((l.filter segHandleOk).length, (l.filter segHandleOk).map SegRow.id) := by
  induction l with
  | nil => rfl
  | cons s rest ih =>
    cases h : handleSegment s <;>
      simp [cleanupLoop, segHandleOk, h, List.filter_cons, ih]

/-- C7: `cleanup_expired_files` commits exactly once, returns exactly the
number of rows it removed, and removes exactly the segments that are both
expired (`expires_at < now`) and whose per-segment handling ran to
completion — a failing segment is skipped while the rest are still
processed. -/
theorem C7_cleanup_expired_files (now : ℤ) (segments : List SegRow) :
    (cleanup_expired_files now segments).2.2 = 1 ∧
    (cleanup_expired_files now segments).1 =
      (cleanup_expired_files now segments).2.1.length ∧
    (cleanup_expired_files now segments).2.1 =
      (segments.filter (fun s => segExpired now s && segHandleOk s)).map SegRow.id := by
  have hcomm : (segments.filter (segExpired now)).filter segHandleOk =
      segments.filter (fun s => segExpired now s && segHandleOk s) := by
    rw [List.filter_filter]
    exact List.filter_congr (fun s _ => Bool.and_comm (segHandleOk s) (segExpired now s))
  simp [cleanup_expired_files, cleanupLoop_spec, hcomm, List.length_map]

/-- Every appended semitone difference of a processed pair ends up in the
loop's accumulated `semitone_errors`. -/
theorem pitchLoop_mem_errors (ctx : PitchCtx) (pair : ℕ × ℕ) :
    ∀ l : List (ℕ × ℕ), pair ∈ l → (pitchStep ctx pair).appended = true →
      (pitchStep ctx pair).diff ∈ (pitchLoop ctx l).2.1 := by
  intro l
  induction l with
  | nil => intro h; cases h
  | cons q rest ih =>
    intro hmem happ
    rcases List.mem_cons.mp hmem with hq | hrest
    · subst hq
      simp [pitchLoop, happ]
    · simp only [pitchLoop, List.mem_append]
      exact Or.inr (ih hrest happ)

/-- `notes_matched` counts exactly the processed pairs whose step was
matched. -/
theorem pitchLoop_matched_count (ctx : PitchCtx) :
    ∀ l : List (ℕ × ℕ),
      (pitchLoop ctx l).2.2 =
        (l.filter (fun q => (pitchStep ctx q).matched)).length := by
  intro l
  induction l with
  | nil => rfl
  | cons q rest ih =>
    by_cases hm : (pitchStep ctx q).matched <;>
      simp [pitchLoop, List.filter_cons, hm, ih, Nat.add_comm]

/-- C5 counterexample: a sampled pair whose reference frame is unvoiced gets
`p_ref = 0`, so its recorded semitone difference stays `0.0 < 0.5` — yet the
pair is NOT counted as matched (`notes_matched` stays 0), refuting
"counted as matched exactly when the difference is strictly less than 0.5". -/
def pitchCtxCex : PitchCtx :=
  { f0_ref := [440], voiced_ref := [false], f0_user := [440, 441],
    voiced_user := [true, true], user_duration := 1 }

/-- C5 counterexample theorem (see `pitchCtxCex`). -/
theorem C5_counterexample :
    ((analyzePitch pitchCtxCex [(0, 1)]).1.headD default).diff < 1/2 ∧
    ((analyzePitch pitchCtxCex [(0, 1)]).1.headD default).matched = false ∧
    (analyzePitch pitchCtxCex [(0, 1)]).2.2 = 0 := by
  have hpr : pRef pitchCtxCex (0, 1) = 0 := by
    simp [pRef, pitchCtxCex]
  have hbp : bothPitchesPositive pitchCtxCex (0, 1) = false := by
    rw [bothPitchesPositive, hpr]
    norm_num
  have hev : every5th [((0 : ℕ), (1 : ℕ))] = [(0, 1)] := by
    simp [every5th]
  have hstep : (pitchStep pitchCtxCex (0, 1)).diff = 0 ∧
      (pitchStep pitchCtxCex (0, 1)).matched = false := by
    rw [pitchStep, if_neg (by simp [hbp])]
    exact ⟨rfl, rfl⟩
  refine ⟨?_, ?_, ?_⟩
  · simp [analyzePitch, hev, pitchLoop, hstep.1]
  · simp [analyzePitch, hev, pitchLoop, hstep.2]
  · simp [analyzePitch, hev, pitchLoop, hstep.2]

/-- C5 amended: for every sampled alignment pair, the recorded semitone
difference is `|12·log2(user/ref)|` when both pitches are present and
strictly positive and `0` otherwise; every pair with a non-zero recorded
difference has it accumulated in the running `semitone_errors`; a pair is
counted as matched exactly when both pitches are present and strictly
positive AND the difference is strictly less than 0.5 semitones, and
`notes_matched` is exactly the number of such sampled pairs. -/
theorem C5_amended (ctx : PitchCtx) (path : List (ℕ × ℕ)) (pair : ℕ × ℕ)
    (hmem : pair ∈ every5th path) :
    ((pitchStep ctx pair).diff =
        if bothPitchesPositive ctx pair then
          semiDiff ((pUser ctx pair).getD 0) (pRef ctx pair)
        else 0) ∧
    ((pitchStep ctx pair).diff ≠ 0 →
      (pitchStep ctx pair).diff ∈ (analyzePitch ctx path).2.1) ∧
    ((pitchStep ctx pair).matched = true ↔
      bothPitchesPositive ctx pair = true ∧ (pitchStep ctx pair).diff < 1/2) ∧
    (analyzePitch ctx path).2.2 =
      ((every5th path).filter (fun q => (pitchStep ctx q).matched)).length := by
  refine ⟨?_, ?_, ?_, pitchLoop_matched_count ctx (every5th path)⟩
  · by_cases hbp : bothPitchesPositive ctx pair <;>
      simp [pitchStep, hbp]
  · intro hne
    apply pitchLoop_mem_errors ctx pair (every5th path) hmem
    by_cases hbp : bothPitchesPositive ctx pair
    · simp [pitchStep, hbp]
    · exact absurd (by simp [pitchStep, hbp]) hne
  · by_cases hbp : bothPitchesPositive ctx pair <;>
      simp [pitchStep, hbp]

/-- Context for the C5 witness: one voiced, identical-pitch pair. -/
def pitchCtxW : PitchCtx :=
  { f0_ref := [440], voiced_ref := [true], f0_user := [439, 440],
    voiced_user := [true, true], user_duration := 1 }

/-- Witness for C5 amended: an identical-pitch pair has difference 0 < 0.5
and is counted as matched, with `notes_matched = 1`. -/
theorem C5_witness :
    (pitchStep pitchCtxW (0, 1)).matched = true ∧
    (analyzePitch pitchCtxW [(0, 1)]).2.2 = 1 := by
  have h := C5_amended pitchCtxW [(0, 1)] (0, 1) (by simp [every5th])
  have hpr : pRef pitchCtxW (0, 1) = 440 := by
    simp [pRef, pitchCtxW]
  have hpu : pUser pitchCtxW (0, 1) = some 440 := by
    rw [pUser, if_pos (by norm_num [pairTime, pitchCtxW])]
    simp [pitchCtxW]
  have hbp : bothPitchesPositive pitchCtxW (0, 1) = true := by
    rw [bothPitchesPositive, hpr, hpu]
    norm_num
  have hdiff : (pitchStep pitchCtxW (0, 1)).diff = 0 := by
    rw [h.1, if_pos hbp, hpu, hpr]
    show semiDiff 440 440 = 0
    rw [semiDiff, show (((440 : ℚ) : ℝ) / ((440 : ℚ) : ℝ)) = 1 by norm_num,
      Real.logb_one]
    norm_num
  have hm : (pitchStep pitchCtxW (0, 1)).matched = true :=
    h.2.2.1.mpr ⟨hbp, by rw [hdiff]; norm_num⟩
  refine ⟨hm, ?_⟩
  rw [h.2.2.2]
  simp [every5th, hm]

end MusicBackend
